import Mathlib

/-
Verification development for the mongoload workload-execution engine
(repository kuzxnia/mongolad).

Shallow embedding of:
  - pkg driver: NewJobHandler and the four handler variants
    (WriteHandler, BulkWriteHandler, ReadHandler, UpdateHandler);
  - pkg mongoload: New, Torment, cancel, worker, performSingleOperation;
  - the job-pool / rate-limiter collaborators (pkg worker, pkg rps), whose
    sources are not part of this snapshot, modelled from the specification.

Machine integers from the Go source are embedded as Int (Go int / int64 /
time.Duration), with explicit reduction mod 2^64 where the source converts
to uint64.  Error returns are embedded as Option String (nil = none).
-/

namespace Mongolad

/-! ## Job pool modelled from the spec (pkg worker is not in the snapshot) -/

/-- Modelled from the spec: the state of worker.NewDeductionJobPool (the
count-bounded job pool; its Go source, pkg worker, is missing from the
snapshot).  It holds a remaining-operations counter, the completed count
and a cancellation flag. -/
structure DeductionPool where
  remaining : Int
  requestsDone : Nat
  cancelled : Bool
deriving DecidableEq, Repr

/-- Modelled from the spec: the count-bounded pool starts with the configured
amount of remaining operations, zero completed and not cancelled. -/
def DeductionPool.init (k : Nat) : DeductionPool :=
  { remaining := (k : Int), requestsDone := 0, cancelled := false }

/-- Modelled from the spec: SpawnJob atomically decrements the
remaining-operations counter and returns true iff the pre-decrement value
was positive and the pool was not cancelled; the decrement happens only when
the pre-decrement value is positive (atomic fetch-and-check), so the counter
never becomes negative. -/
def DeductionPool.spawnJob (p : DeductionPool) : Bool × DeductionPool :=
  if p.cancelled then (false, p)
  else if 0 < p.remaining then (true, { p with remaining := p.remaining - 1 })
  else (false, p)

/-- Modelled from the spec: MarkJobDone atomically increments the
completed-operations counter. -/
def DeductionPool.markJobDone (p : DeductionPool) : DeductionPool :=
  { p with requestsDone := p.requestsDone + 1 }

/-- Modelled from the spec: Cancel sets the cancellation flag observed by all
future SpawnJob calls; it is idempotent. -/
def DeductionPool.cancel (p : DeductionPool) : DeductionPool :=
  { p with cancelled := true }

/-- Modelled from the spec: GetRequestsDone returns the completed count. -/
def DeductionPool.getRequestsDone (p : DeductionPool) : Nat :=
  p.requestsDone

/-! ## The worker loop (pkg mongoload, functions worker and
performSingleOperation) over an abstract pool/limiter/client -/

/-- Events recorded by a worker iteration: the outcome of JobPool.SpawnJob,
a RateLimiter.Take call, the database-client call DbClient.InsertOneOrMany
made by performSingleOperation, a (hypothetical) JobHandler.Handle call, and
JobPool.MarkJobDone. -/
inductive Event where
  | spawnTrue
  | spawnFalse
  | take
  | dbInsertOneOrMany
  | handlerHandle
  | markDone
deriving DecidableEq, Repr

/-- The interface surface the worker loop interacts with, over an abstract
shared mutable state sigma: the mongoload struct holds pool (worker.JobPool),
rateLimiter (rps.Limiter) and db (database.DbClient), and the worker calls
pool.SpawnJob, rateLimiter.Take, db.InsertOneOrMany and pool.MarkJobDone. -/
structure PoolModel (σ : Type) where
  spawnJob : σ → Bool × σ
  take : σ → σ
  dbInsertOneOrMany : σ → (Bool × Option String) × σ
  markJobDone : σ → σ

/-- Embeds performSingleOperation: it receives the pair returned by
db.InsertOneOrMany, discards the error component (the source binds it to the
blank identifier) and returns the success flag. -/
def performSingleOperation (res : Bool × Option String) : Bool :=
  res.1

/-- Embeds the worker loop of pkg mongoload:
for pool.SpawnJob: rateLimiter.Take; performSingleOperation; pool.MarkJobDone.
Fuel bounds the number of iterations (the Go loop may run forever on an
unbounded pool); alongside the final state, the trace of events is returned.
The Bool result of performSingleOperation is discarded by the worker, as in
the source. -/
def workerRun {σ : Type} (m : PoolModel σ) : Nat → σ → σ × List Event
  | 0, s => (s, [])
  | fuel + 1, s =>
    let sp := m.spawnJob s
    if sp.1 then
      let s2 := m.take sp.2
      let dbres := m.dbInsertOneOrMany s2
      let _success := performSingleOperation dbres.1
      let s4 := m.markJobDone dbres.2
      let rest := workerRun m fuel s4
      (rest.1,
        Event.spawnTrue :: Event.take :: Event.dbInsertOneOrMany ::
          Event.markDone :: rest.2)
    else
      (sp.2, [Event.spawnFalse])

/-- The shape of every worker trace: a sequence of complete iterations
(SpawnJob returning true, then Take, then the database call, then
MarkJobDone), ended either by running out of fuel or by a single false
SpawnJob result after which nothing further happens. -/
inductive WorkerTraceShape : List Event → Prop where
  | fuelOut : WorkerTraceShape []
  | exit : WorkerTraceShape [Event.spawnFalse]
  | iter {tr : List Event} : WorkerTraceShape tr →
      WorkerTraceShape
        (Event.spawnTrue :: Event.take :: Event.dbInsertOneOrMany ::
          Event.markDone :: tr)

/-- The deduction pool, the no-limit limiter (modelled from the spec: its
Take returns immediately and does not touch shared state) and a stub database
client that always succeeds, packaged as a concrete PoolModel instance. -/
def deductionPoolModel : PoolModel DeductionPool :=
  { spawnJob := DeductionPool.spawnJob
    take := id
    dbInsertOneOrMany := fun s => ((true, none), s)
    markJobDone := DeductionPool.markJobDone }

/-! ## The constructor New of pkg mongoload -/

/-- Which job-pool constructor New selects: worker.NewNoLimitTimerJobPool,
worker.NewTimerJobPool(duration) or worker.NewDeductionJobPool(amount). -/
inductive PoolChoice where
  | noLimitTimer
  | timer (duration : Int)
  | deduction (amount : Nat)
deriving DecidableEq, Repr

/-- Which rate limiter New selects: rps.NewNoLimitLimiter or
rps.NewSimpleLimiter(rateLimit). -/
inductive LimiterChoice where
  | noLimit
  | simple (rate : Int)
deriving DecidableEq, Repr

/-- The fields of the mongoload struct that New initialises.  wgAdded records
the argument passed to wg.Add. -/
structure MongoloadState where
  concurrentConnections : Int
  rateLimit : Int
  operationsAmount : Int
  duration : Int
  pool : PoolChoice
  rateLimiter : LimiterChoice
  wgAdded : Int
deriving DecidableEq, Repr

/-- Embeds New(ops, conns, rateLimit, duration, database) of pkg mongoload.
Branch structure follows the source exactly: pool selection by the
duration/ops zero tests, limiter selection by the rateLimit zero test, the
conns-defaulting to 100, wg.Add(concurrentConnections), and the single
return statement, whose error component is nil.  The database argument is an
externally injected client and does not influence any of these fields.
uint64(operationsAmount) is embedded as reduction mod 2^64. -/
def mongoloadNew (ops conns rateLimit duration : Int) :
    MongoloadState × Option String :=
  let base : MongoloadState :=
    { concurrentConnections := 0, rateLimit := 0, operationsAmount := 0,
      duration := 0, pool := PoolChoice.noLimitTimer,
      rateLimiter := LimiterChoice.noLimit, wgAdded := 0 }
  let load :=
    if duration = 0 ∧ ops = 0 then
      { base with pool := PoolChoice.noLimitTimer }
    else if duration ≠ 0 then
      { base with duration := duration, pool := PoolChoice.timer duration }
    else
      { base with operationsAmount := ops,
                  pool := PoolChoice.deduction ((ops % (2 : Int) ^ 64).toNat) }
  let load :=
    { load with rateLimit := rateLimit,
                rateLimiter :=
                  if rateLimit = 0 then LimiterChoice.noLimit
                  else LimiterChoice.simple rateLimit }
  let conns2 := if conns = 0 then 100 else conns
  let load :=
    { load with concurrentConnections := conns2, wgAdded := conns2 }
  (load, none)

/-- Embeds the worker-spawning loop of Torment:
for i := 0; i < concurrentConnections; i++ go worker() spawns
concurrentConnections goroutines (none when the field is not positive). -/
def tormentSpawnCount (st : MongoloadState) : Nat :=
  st.concurrentConnections.toNat

/-! ## Job-handler dispatch (pkg driver) -/

/-- Modelled from the spec: the operation-type constant config.Write of pkg
config (not in the snapshot). -/
def writeType : String := "write"

/-- Modelled from the spec: the operation-type constant config.Read of pkg
config (not in the snapshot). -/
def readType : String := "read"

/-- Modelled from the spec: the operation-type constant config.Update of pkg
config (not in the snapshot). -/
def updateType : String := "update"

/-- Modelled from the spec: the operation-type constant config.BulkWrite of
pkg config (not in the snapshot). -/
def bulkWriteType : String := "bulk_write"

/-- The fields of config.Job that NewJobHandler consults: the declared
operation type and the template schema handed to schema.NewDataProvider. -/
structure JobCfg where
  opType : String
  schema : String
deriving DecidableEq, Repr

/-- The four JobHandler variants of pkg driver. -/
inductive HandlerKind where
  | write
  | read
  | update
  | bulkWrite
deriving DecidableEq, Repr

/-- Embeds NewJobHandler of pkg driver: a switch on cfg.Type returning one
handler per known operation type; the default branch of the switch aborts
construction (the source raises a fatal runtime abort with the message below),
embedded as Except.error. -/
def NewJobHandler (cfg : JobCfg) : Except String HandlerKind :=
  if cfg.opType = writeType then Except.ok HandlerKind.write
  else if cfg.opType = readType then Except.ok HandlerKind.read
  else if cfg.opType = updateType then Except.ok HandlerKind.update
  else if cfg.opType = bulkWriteType then Except.ok HandlerKind.bulkWrite
  else Except.error ("Invalid job type: " ++ cfg.opType)

/-- The DataProvider calls a handler can make (pkg schema interface). -/
inductive ProviderCall where
  | getSingleItem
  | getBatch (n : Nat)
  | getFilter
deriving DecidableEq, Repr

/-- The database-client calls a handler can make (pkg database interface). -/
inductive ClientCall where
  | insertOne
  | insertMany
  | readOne
  | updateOne
deriving DecidableEq, Repr

/-- Embeds the Handle method of each variant of pkg driver, as the list of
DataProvider calls it makes (in the order the Go call arguments are
evaluated) paired with the single database-client call it makes:
WriteHandler: client.InsertOne(provider.GetSingleItem());
BulkWriteHandler: client.InsertMany(provider.GetBatch(100));
ReadHandler: client.ReadOne(provider.GetFilter());
UpdateHandler: client.UpdateOne(provider.GetFilter(), provider.GetSingleItem()). -/
def handleCalls : HandlerKind → List ProviderCall × ClientCall
  | HandlerKind.write => ([ProviderCall.getSingleItem], ClientCall.insertOne)
  | HandlerKind.bulkWrite => ([ProviderCall.getBatch 100], ClientCall.insertMany)
  | HandlerKind.read => ([ProviderCall.getFilter], ClientCall.readOne)
  | HandlerKind.update =>
      ([ProviderCall.getFilter, ProviderCall.getSingleItem], ClientCall.updateOne)

/-! ## Concurrent execution of the worker loop over the count-bounded pool

Every pool and limiter operation of the source is atomic (the spec requires
atomic access to the shared counters), so a concurrent execution of W workers
is an interleaving of atomic micro-steps, chosen by a schedule of worker
indices.  Each worker is a program counter through the loop body of worker()
of pkg mongoload. -/

/-- The program counter of one worker through its loop body: about to call
SpawnJob, about to call RateLimiter.Take, about to perform the database call
of performSingleOperation, about to call MarkJobDone, or exited. -/
inductive WPhase where
  | atSpawn
  | atTake
  | atOp
  | atMark
  | exited
deriving DecidableEq, Repr

/-- A worker between a successful SpawnJob and its MarkJobDone call. -/
def WPhase.isInFlight : WPhase → Bool
  | WPhase.atTake => true
  | WPhase.atOp => true
  | WPhase.atMark => true
  | _ => false

/-- Number of workers currently between a successful SpawnJob and the
matching MarkJobDone. -/
def inFlight (ws : List WPhase) : Nat :=
  ws.countP WPhase.isInFlight

/-- Global state of a run: the shared count-bounded pool, the number of
SpawnJob calls so far that returned true (instrumentation used to state the
exactly-K property), the number of database calls issued so far, and each
worker's program counter. -/
structure Sys where
  pool : DeductionPool
  spawnTrueCount : Nat
  opCalls : Nat
  workers : List WPhase
deriving DecidableEq, Repr

/-- Initial state of a run with a count-bounded pool of k operations and w
workers, all about to make their first SpawnJob call. -/
def initSys (k w : Nat) : Sys :=
  { pool := DeductionPool.init k, spawnTrueCount := 0, opCalls := 0,
    workers := List.replicate w WPhase.atSpawn }

/-- One atomic micro-step of worker i, following the loop body of worker() of
pkg mongoload.  db gives, for each database call in issue order, the
(success, error) pair returned by db.InsertOneOrMany; performSingleOperation
drops the error and the worker drops the success flag, exactly as in the
source.  A step of an exited or non-existent worker does nothing. -/
def step (db : Nat → Bool × Option String) (i : Nat) (s : Sys) : Sys :=
  match s.workers[i]? with
  | none => s
  | some WPhase.atSpawn =>
      let sp := s.pool.spawnJob
      if sp.1 then
        { s with pool := sp.2, spawnTrueCount := s.spawnTrueCount + 1,
                 workers := s.workers.set i WPhase.atTake }
      else
        { s with pool := sp.2, workers := s.workers.set i WPhase.exited }
  | some WPhase.atTake =>
      -- rps.NewNoLimitLimiter().Take() returns immediately (modelled from the
      -- spec; pkg rps is not in the snapshot) and touches no shared state
      { s with workers := s.workers.set i WPhase.atOp }
  | some WPhase.atOp =>
      let _success := performSingleOperation (db s.opCalls)
      { s with opCalls := s.opCalls + 1,
               workers := s.workers.set i WPhase.atMark }
  | some WPhase.atMark =>
      { s with pool := s.pool.markJobDone,
               workers := s.workers.set i WPhase.atSpawn }
  | some WPhase.exited => s

/-- Run a schedule of worker indices from a state. -/
def exec (db : Nat → Bool × Option String) (sched : List Nat) (s : Sys) : Sys :=
  sched.foldl (fun t i => step db i t) s

/-- All workers have exited their loops (the wg.Wait barrier of Torment has
released). -/
def drained (s : Sys) : Bool :=
  s.workers.all fun w => w == WPhase.exited

/-- A database client whose calls all succeed. -/
def dbAllOk : Nat → Bool × Option String := fun _ => (true, none)

/-- A database client whose calls all fail with an error. -/
def dbAllFail : Nat → Bool × Option String := fun _ => (false, some "db error")

/-! ## The end-of-run statistics of Torment -/

/-- The statistics Torment reports after the wg.Wait barrier releases. -/
structure Stats where
  elapsedSeconds : ℚ
  totalOperations : Nat
  rps : ℚ
  ops : ℚ
deriving DecidableEq, Repr

/-- Embeds the statistics block of Torment: requestsDone is read from the
pool via GetRequestsDone, rps = requestsDone / elapsed seconds, and
ops = requestsDone * db.GetBatchSize() / elapsed seconds.  The source
computes these in floating point; they are embedded over the rationals. -/
def tormentStats (requestsDone : Nat) (batchSize : Nat)
    (elapsedSeconds : ℚ) : Stats :=
  { elapsedSeconds := elapsedSeconds
    totalOperations := requestsDone
    rps := (requestsDone : ℚ) / elapsedSeconds
    ops := ((requestsDone * batchSize : Nat) : ℚ) / elapsedSeconds }

/-- Embeds Torment over the count-bounded pool: run the workers to the
schedule (Torment blocks in wg.Wait until all have exited; the theorems add
drainedness as a hypothesis on the schedule), then compute the statistics
from the pool the workers left behind. -/
def torment (db : Nat → Bool × Option String) (sched : List Nat)
    (k w batchSize : Nat) (elapsedSeconds : ℚ) : Stats :=
  tormentStats ((exec db sched (initSys k w)).pool.getRequestsDone)
    batchSize elapsedSeconds

/-! ## Interrupt handling of Torment -/

/-- Embeds the interrupt plumbing of Torment: interruptChan is a buffered
channel of capacity 1 registered with signal.Notify, which drops a delivered
signal when the buffer is full.  After n delivered interrupt signals the
channel has held min n 1 pending signals for the handler goroutine. -/
def signalChanPending (delivered : Nat) : Nat :=
  min delivered 1

/-- Embeds the handler goroutine of Torment: it performs a single receive
from interruptChan, then calls ml.cancel() once (which calls pool.Cancel()
once) and returns; it never receives again, so later signals cause no
further calls.  With no pending signal it stays blocked and never calls
cancel.  The result is the number of ml.cancel() calls the goroutine makes
after n delivered signals. -/
def interruptCancelCalls (delivered : Nat) : Nat :=
  min (signalChanPending delivered) 1

/-- Follows the amended specification words, for comparison with the
embedding handleCalls of the source: single-insert passes one synthetic
record to InsertOne; batch-insert passes a fixed-size batch of 100 items
(the variant's default) to InsertMany; single-read passes a filter to
ReadOne; single-update passes a filter and a synthetic update document (two
DataProvider calls) to UpdateOne. -/
def specHandlerCalls : HandlerKind → List ProviderCall × ClientCall
  | HandlerKind.write => ([ProviderCall.getSingleItem], ClientCall.insertOne)
  | HandlerKind.bulkWrite =>
      ([ProviderCall.getBatch 100], ClientCall.insertMany)
  | HandlerKind.read => ([ProviderCall.getFilter], ClientCall.readOne)
  | HandlerKind.update =>
      ([ProviderCall.getFilter, ProviderCall.getSingleItem],
        ClientCall.updateOne)

/-! ## Invariants of the concurrent count-bounded run -/

/-- The inductive invariant of a run of w workers over a count-bounded pool
of k operations, with no cancellation: the remaining counter is never
negative, successful spawns and the remaining counter partition k, the
completed count plus the in-flight workers equals the successful spawns, a
worker can only have exited once the counter hit zero, and the worker list
keeps its length. -/
structure Inv (k w : Nat) (s : Sys) : Prop where
  remNonneg : 0 ≤ s.pool.remaining
  notCancelled : s.pool.cancelled = false
  spawnRem : s.spawnTrueCount + s.pool.remaining.toNat = k
  doneFlight : s.pool.requestsDone + inFlight s.workers = s.spawnTrueCount
  exitedZero : WPhase.exited ∈ s.workers → s.pool.remaining = 0
  wlen : s.workers.length = w

/-- Exchange form of counting over a list update: updating index i from a to
b changes the count by the difference of the two indicator values. -/
lemma countP_set_exchange {α : Type} (p : α → Bool) :
    ∀ (l : List α) (i : Nat) (a b : α), l[i]? = some a →
      (l.set i b).countP p + (if p a then 1 else 0) =
        l.countP p + (if p b then 1 else 0) := by
  intro l
  induction l with
  | nil => intro i a b h; simp at h
  | cons x xs ih =>
      intro i a b h
      cases i with
      | zero =>
          simp only [List.getElem?_cons_zero, Option.some.injEq] at h
          subst h
          simp only [List.set_cons_zero, List.countP_cons]
          omega
      | succ n =>
          simp only [List.getElem?_cons_succ] at h
          have := ih n a b h
          simp only [List.set_cons_succ, List.countP_cons]
          omega

lemma inv_init (k w : Nat) : Inv k w (initSys k w) := by
  refine ⟨?_, rfl, ?_, ?_, ?_, ?_⟩
  · exact Int.ofNat_nonneg k
  · simp [initSys, DeductionPool.init]
  · have hz : inFlight (List.replicate w WPhase.atSpawn) = 0 := by
      rw [inFlight, List.countP_eq_zero]
      intro a ha
      rw [List.eq_of_mem_replicate ha]
      simp [WPhase.isInFlight]
    simp [initSys, DeductionPool.init, hz]
  · intro hmem
    exact absurd (List.eq_of_mem_replicate hmem) (by simp)
  · simp [initSys]

lemma step_eq_none (db : Nat → Bool × Option String) (i : Nat) (s : Sys)
    (hw : s.workers[i]? = none) : step db i s = s := by
  unfold step
  rw [hw]

lemma step_eq_exited (db : Nat → Bool × Option String) (i : Nat) (s : Sys)
    (hw : s.workers[i]? = some WPhase.exited) : step db i s = s := by
  unfold step
  rw [hw]

lemma step_eq_atSpawn_true (db : Nat → Bool × Option String) (i : Nat)
    (s : Sys) (hw : s.workers[i]? = some WPhase.atSpawn)
    (hcanc : s.pool.cancelled = false) (hr : 0 < s.pool.remaining) :
    step db i s =
      { s with pool := { s.pool with remaining := s.pool.remaining - 1 },
               spawnTrueCount := s.spawnTrueCount + 1,
               workers := s.workers.set i WPhase.atTake } := by
  unfold step
  rw [hw]
  simp [DeductionPool.spawnJob, hcanc, hr]

lemma step_eq_atSpawn_false (db : Nat → Bool × Option String) (i : Nat)
    (s : Sys) (hw : s.workers[i]? = some WPhase.atSpawn)
    (hcanc : s.pool.cancelled = false) (hr : ¬ 0 < s.pool.remaining) :
    step db i s = { s with workers := s.workers.set i WPhase.exited } := by
  unfold step
  rw [hw]
  simp [DeductionPool.spawnJob, hcanc, hr]

lemma step_eq_atTake (db : Nat → Bool × Option String) (i : Nat) (s : Sys)
    (hw : s.workers[i]? = some WPhase.atTake) :
    step db i s = { s with workers := s.workers.set i WPhase.atOp } := by
  unfold step
  rw [hw]

lemma step_eq_atOp (db : Nat → Bool × Option String) (i : Nat) (s : Sys)
    (hw : s.workers[i]? = some WPhase.atOp) :
    step db i s = { s with opCalls := s.opCalls + 1,
                           workers := s.workers.set i WPhase.atMark } := by
  unfold step
  rw [hw]

lemma step_eq_atMark (db : Nat → Bool × Option String) (i : Nat) (s : Sys)
    (hw : s.workers[i]? = some WPhase.atMark) :
    step db i s = { s with pool := s.pool.markJobDone,
                           workers := s.workers.set i WPhase.atSpawn } := by
  unfold step
  rw [hw]

lemma inv_step (k w : Nat) (db : Nat → Bool × Option String) (i : Nat)
    (s : Sys) (h : Inv k w s) : Inv k w (step db i s) := by
  obtain ⟨hrem, hcanc, hsp, hdf, hex, hwl⟩ := h
  cases hw : s.workers[i]? with
  | none =>
      rw [step_eq_none db i s hw]
      exact ⟨hrem, hcanc, hsp, hdf, hex, hwl⟩
  | some ph =>
      cases ph with
      | atSpawn =>
          by_cases hr : 0 < s.pool.remaining
          · rw [step_eq_atSpawn_true db i s hw hcanc hr]
            have hcount := countP_set_exchange WPhase.isInFlight s.workers i
              WPhase.atSpawn WPhase.atTake hw
            simp [WPhase.isInFlight] at hcount
            refine ⟨by simp only; omega, hcanc, by simp only; omega, ?_, ?_, ?_⟩
            · simp only [inFlight] at hdf ⊢
              omega
            · intro hmem
              simp only at hmem
              rcases List.mem_or_eq_of_mem_set hmem with hm | hm
              · exact absurd (hex hm) (by omega)
              · exact absurd hm (by simp)
            · simp only [List.length_set]
              exact hwl
          · rw [step_eq_atSpawn_false db i s hw hcanc hr]
            have hcount := countP_set_exchange WPhase.isInFlight s.workers i
              WPhase.atSpawn WPhase.exited hw
            simp [WPhase.isInFlight] at hcount
            refine ⟨hrem, hcanc, hsp, ?_, ?_, ?_⟩
            · simp only [inFlight] at hdf ⊢
              omega
            · intro _
              simp only
              omega
            · simp only [List.length_set]
              exact hwl
      | atTake =>
          rw [step_eq_atTake db i s hw]
          have hcount := countP_set_exchange WPhase.isInFlight s.workers i
            WPhase.atTake WPhase.atOp hw
          simp [WPhase.isInFlight] at hcount
          refine ⟨hrem, hcanc, hsp, ?_, ?_, ?_⟩
          · simp only [inFlight] at hdf ⊢
            omega
          · intro hmem
            simp only at hmem
            rcases List.mem_or_eq_of_mem_set hmem with hm | hm
            · exact hex hm
            · exact absurd hm (by simp)
          · simp only [List.length_set]
            exact hwl
      | atOp =>
          rw [step_eq_atOp db i s hw]
          have hcount := countP_set_exchange WPhase.isInFlight s.workers i
            WPhase.atOp WPhase.atMark hw
          simp [WPhase.isInFlight] at hcount
          refine ⟨hrem, hcanc, hsp, ?_, ?_, ?_⟩
          · simp only [inFlight] at hdf ⊢
            omega
          · intro hmem
            simp only at hmem
            rcases List.mem_or_eq_of_mem_set hmem with hm | hm
            · exact hex hm
            · exact absurd hm (by simp)
          · simp only [List.length_set]
            exact hwl
      | atMark =>
          rw [step_eq_atMark db i s hw]
          have hcount := countP_set_exchange WPhase.isInFlight s.workers i
            WPhase.atMark WPhase.atSpawn hw
          simp [WPhase.isInFlight] at hcount
          refine ⟨hrem, hcanc, hsp, ?_, ?_, ?_⟩
          · simp only [inFlight, DeductionPool.markJobDone] at hdf ⊢
            omega
          · intro hmem
            simp only at hmem
            rcases List.mem_or_eq_of_mem_set hmem with hm | hm
            · exact hex hm
            · exact absurd hm (by simp)
          · simp only [List.length_set]
            exact hwl
      | exited =>
          rw [step_eq_exited db i s hw]
          exact ⟨hrem, hcanc, hsp, hdf, hex, hwl⟩

lemma inv_exec (k w : Nat) (db : Nat → Bool × Option String) :
    ∀ (sched : List Nat) (s : Sys), Inv k w s → Inv k w (exec db sched s) := by
  intro sched
  induction sched with
  | nil => intro s h; simpa [exec] using h
  | cons i t ih =>
      intro s h
      have : exec db (i :: t) s = exec db t (step db i s) := by
        simp [exec]
      rw [this]
      exact ih _ (inv_step k w db i s h)

/-- After every worker of a nonempty worker set has exited, the completed
count and the number of successful SpawnJob calls of an invariant-satisfying
state both equal exactly the configured bound k. -/
lemma inv_drained_exact (k w : Nat) (s : Sys) (hi : Inv k w s) (hw : 0 < w)
    (hd : drained s = true) :
    s.pool.requestsDone = k ∧ s.spawnTrueCount = k := by
  have hall : ∀ x ∈ s.workers, x = WPhase.exited := by
    intro x hx
    exact eq_of_beq (List.all_eq_true.mp hd x hx)
  have hexmem : WPhase.exited ∈ s.workers := by
    cases hlist : s.workers with
    | nil =>
        have hlw := hi.wlen
        rw [hlist] at hlw
        simp at hlw
        omega
    | cons x xs =>
        have hxe : x = WPhase.exited := by
          refine hall x ?_
          rw [hlist]
          exact List.mem_cons_self x xs
        rw [← hxe]
        exact List.mem_cons_self x xs
  have hrem0 : s.pool.remaining = 0 := hi.exitedZero hexmem
  have hflight0 : inFlight s.workers = 0 := by
    rw [inFlight, List.countP_eq_zero]
    intro a ha
    rw [hall a ha]
    simp [WPhase.isInFlight]
  have hspk : s.spawnTrueCount = k := by
    have hsr := hi.spawnRem
    rw [hrem0] at hsr
    simpa using hsr
  have hdone : s.pool.requestsDone = k := by
    have hdfl := hi.doneFlight
    omega
  exact ⟨hdone, hspk⟩

/-- Specialisation to a full run from the initial state. -/
lemma drained_exact (k w : Nat) (db : Nat → Bool × Option String)
    (sched : List Nat) (hw : 0 < w)
    (hd : drained (exec db sched (initSys k w)) = true) :
    (exec db sched (initSys k w)).pool.requestsDone = k ∧
      (exec db sched (initSys k w)).spawnTrueCount = k :=
  inv_drained_exact k w (exec db sched (initSys k w))
    (inv_exec k w db sched (initSys k w) (inv_init k w)) hw hd

/-- A worker step never depends on the values the database client returns:
performSingleOperation discards the error and the worker discards the
success flag. -/
lemma step_db_irrel (db db2 : Nat → Bool × Option String) (i : Nat)
    (s : Sys) : step db i s = step db2 i s := by
  unfold step
  cases s.workers[i]? with
  | none => rfl
  | some ph => cases ph <;> rfl

lemma exec_db_irrel (db db2 : Nat → Bool × Option String) :
    ∀ (sched : List Nat) (s : Sys), exec db sched s = exec db2 sched s := by
  intro sched
  induction sched with
  | nil => intro s; rfl
  | cons i t ih =>
      intro s
      have h1 : exec db (i :: t) s = exec db t (step db i s) := by simp [exec]
      have h2 : exec db2 (i :: t) s = exec db2 t (step db2 i s) := by
        simp [exec]
      rw [h1, h2, step_db_irrel db db2 i s]
      exact ih (step db i s)

/-- Once all workers have exited, none is between a successful SpawnJob and
its MarkJobDone. -/
lemma drained_inFlight_zero (s : Sys) (hd : drained s = true) :
    inFlight s.workers = 0 := by
  rw [inFlight, List.countP_eq_zero]
  intro a ha
  rw [eq_of_beq (List.all_eq_true.mp hd a ha)]
  simp [WPhase.isInFlight]

/-! ## Claim theorems -/

/-- Claim C1, counterexample: at the concrete count-1 pool with fuel 2, the
worker loop performs its one operation per iteration through the
database-client call db.InsertOneOrMany made by performSingleOperation, not
through JobHandler.Handle — the trace the claim describes does not occur. -/
theorem worker_op_is_db_call_not_handler :
    (workerRun deductionPoolModel 2 (DeductionPool.init 1)).2 =
      [Event.spawnTrue, Event.take, Event.dbInsertOneOrMany, Event.markDone,
        Event.spawnFalse] ∧
    ¬ (workerRun deductionPoolModel 2 (DeductionPool.init 1)).2 =
      [Event.spawnTrue, Event.take, Event.handlerHandle, Event.markDone,
        Event.spawnFalse] := by
  decide

/-- Claim C1, amended: for every pool/limiter/client model, every fuel bound
and every start state, each worker executes exactly the loop — while SpawnJob
returns true: Take, then one database operation via performSingleOperation
(db.InsertOneOrMany), then MarkJobDone — and it exits its loop the instant
SpawnJob returns false, performing no further action in that iteration. -/
theorem worker_loop_trace_shape {σ : Type} (m : PoolModel σ) :
    ∀ (fuel : Nat) (s : σ), WorkerTraceShape (workerRun m fuel s).2 := by
  intro fuel
  induction fuel with
  | zero => intro s; exact WorkerTraceShape.fuelOut
  | succ n ih =>
      intro s
      cases h : (m.spawnJob s).1 with
      | true =>
          simp only [workerRun, h, if_true]
          exact WorkerTraceShape.iter (ih _)
      | false =>
          simp only [workerRun, h, Bool.false_eq_true, if_false]
          exact WorkerTraceShape.exit

/-- Claim C2: over every interleaved schedule of any number of concurrent
workers on a count-bounded pool of K operations, the remaining-operations
counter never goes negative, and once all workers have drained,
GetRequestsDone equals exactly K and SpawnJob returned true exactly K times. -/
theorem count_pool_drains_exactly_k (k w : Nat)
    (db : Nat → Bool × Option String) (sched : List Nat) :
    0 ≤ (exec db sched (initSys k w)).pool.remaining ∧
    (0 < w → drained (exec db sched (initSys k w)) = true →
      (exec db sched (initSys k w)).pool.getRequestsDone = k ∧
        (exec db sched (initSys k w)).spawnTrueCount = k) := by
  constructor
  · exact (inv_exec k w db sched (initSys k w) (inv_init k w)).remNonneg
  · intro hw hd
    exact drained_exact k w db sched hw hd

/-- Claim C2, witness: one worker, K = 2, a nine-step schedule draining the
pool: GetRequestsDone and the successful-SpawnJob count are both exactly 2. -/
theorem count_pool_drains_exactly_k_witness :
    (exec dbAllOk [0, 0, 0, 0, 0, 0, 0, 0, 0]
        (initSys 2 1)).pool.getRequestsDone = 2 ∧
      (exec dbAllOk [0, 0, 0, 0, 0, 0, 0, 0, 0]
        (initSys 2 1)).spawnTrueCount = 2 :=
  (count_pool_drains_exactly_k 2 1 dbAllOk [0, 0, 0, 0, 0, 0, 0, 0, 0]).2
    (by decide) (by decide)

/-- Claim C3, counterexample: a configuration with both a nonzero operation
count (5) and a nonzero duration (3) is not rejected — New returns a nil
error and silently selects the duration-bounded pool. -/
theorem conflicting_policies_not_rejected :
    (mongoloadNew 5 1 0 3).2 = none ∧
      (mongoloadNew 5 1 0 3).1.pool = PoolChoice.timer 3 := by
  decide

/-- Claim C3, amended: New never reports a configuration error; it selects
the pool by: both duration and ops zero — unbounded; duration nonzero —
duration-bounded (duration silently takes precedence when ops is also
nonzero); otherwise count-bounded with the ops count. -/
theorem new_policy_selection (ops conns rateLimit duration : Int) :
    (mongoloadNew ops conns rateLimit duration).2 = none ∧
    (mongoloadNew ops conns rateLimit duration).1.pool =
      (if duration = 0 ∧ ops = 0 then PoolChoice.noLimitTimer
       else if duration ≠ 0 then PoolChoice.timer duration
       else PoolChoice.deduction ((ops % (2 : Int) ^ 64).toNat)) := by
  constructor
  · rfl
  · unfold mongoloadNew
    by_cases h1 : duration = 0 ∧ ops = 0
    · simp [h1]
    · by_cases h2 : duration ≠ 0 <;> simp [h1, h2]

/-- Claim C4, counterexample: a complete two-worker run over an
always-failing database client leaves the engine in exactly the same final
state as the same run over an always-succeeding client, and still counts
both attempts as completed — so no separate success or failure tally is
recorded anywhere alongside the completed count. -/
theorem run_ignores_operation_outcomes :
    exec dbAllFail [0, 1, 0, 1, 0, 1, 0, 1, 0, 1] (initSys 2 2) =
      exec dbAllOk [0, 1, 0, 1, 0, 1, 0, 1, 0, 1] (initSys 2 2) ∧
    (exec dbAllFail [0, 1, 0, 1, 0, 1, 0, 1, 0, 1]
        (initSys 2 2)).pool.requestsDone = 2 := by
  decide

/-- Claim C4, amended: an error returned by an operation never stops the
worker loop — the run is identical whatever the database client returns,
because performSingleOperation discards the error and the worker discards
the success flag — and after drain MarkJobDone has incremented the completed
counter once per successful SpawnJob regardless of operation outcome; no
separate success/failure tallies are recorded. -/
theorem errors_never_stop_workers (db : Nat → Bool × Option String)
    (sched : List Nat) (k w : Nat) :
    exec db sched (initSys k w) = exec dbAllOk sched (initSys k w) ∧
    (drained (exec db sched (initSys k w)) = true →
      (exec db sched (initSys k w)).pool.requestsDone =
        (exec db sched (initSys k w)).spawnTrueCount) := by
  constructor
  · exact exec_db_irrel db dbAllOk sched (initSys k w)
  · intro hd
    have hi := inv_exec k w db sched (initSys k w) (inv_init k w)
    have hz := drained_inFlight_zero (exec db sched (initSys k w)) hd
    have hdf := hi.doneFlight
    omega

/-- Claim C4, witness: a drained run over the always-failing client, K = 2,
one worker: the completed count still equals the successful-spawn count. -/
theorem errors_never_stop_workers_witness :
    (exec dbAllFail [0, 0, 0, 0, 0, 0, 0, 0, 0]
        (initSys 2 1)).pool.requestsDone =
      (exec dbAllFail [0, 0, 0, 0, 0, 0, 0, 0, 0]
        (initSys 2 1)).spawnTrueCount :=
  (errors_never_stop_workers dbAllFail [0, 0, 0, 0, 0, 0, 0, 0, 0] 2 1).2
    (by decide)

/-- Claim C5: handler selection is a pure function of the declared operation
type; each of the four known types yields exactly its corresponding handler
variant, and any other type is a construction-time fatal configuration
error (NewJobHandler aborts with the invalid-job-type message), never a
dispatch failure inside Handle. -/
theorem job_handler_dispatch_total :
    (∀ c1 c2 : JobCfg, c1.opType = c2.opType →
        NewJobHandler c1 = NewJobHandler c2) ∧
    (∀ s, NewJobHandler ⟨writeType, s⟩ = Except.ok HandlerKind.write) ∧
    (∀ s, NewJobHandler ⟨readType, s⟩ = Except.ok HandlerKind.read) ∧
    (∀ s, NewJobHandler ⟨updateType, s⟩ = Except.ok HandlerKind.update) ∧
    (∀ s, NewJobHandler ⟨bulkWriteType, s⟩ =
        Except.ok HandlerKind.bulkWrite) ∧
    (∀ c : JobCfg, c.opType ≠ writeType → c.opType ≠ readType →
        c.opType ≠ updateType → c.opType ≠ bulkWriteType →
        NewJobHandler c = Except.error ("Invalid job type: " ++ c.opType)) := by
  refine ⟨?_, ?_, ?_, ?_, ?_, ?_⟩
  · intro c1 c2 hty
    unfold NewJobHandler
    rw [hty]
  · intro s
    simp [NewJobHandler]
  · intro s
    simp [NewJobHandler, writeType, readType]
  · intro s
    simp [NewJobHandler, writeType, readType, updateType]
  · intro s
    simp [NewJobHandler, writeType, readType, updateType, bulkWriteType]
  · intro c h1 h2 h3 h4
    unfold NewJobHandler
    rw [if_neg h1, if_neg h2, if_neg h3, if_neg h4]

/-- Claim C5, witness: the unknown operation type foo is rejected at
construction with the invalid-job-type error. -/
theorem job_handler_dispatch_total_witness :
    NewJobHandler ⟨"foo", ""⟩ =
      Except.error ("Invalid job type: " ++ "foo") :=
  job_handler_dispatch_total.2.2.2.2.2 ⟨"foo", ""⟩ (by decide) (by decide)
    (by decide) (by decide)

/-- Claim C6, counterexample: the single-update variant makes two
DataProvider calls (GetFilter and GetSingleItem), not exactly one. -/
theorem update_handler_two_provider_calls :
    (handleCalls HandlerKind.update).1.length = 2 ∧
      ¬ (handleCalls HandlerKind.update).1.length = 1 := by
  decide

/-- Claim C6, amended: each handler variant composes the DataProvider calls
and the single database-client call stated by the (amended) specification:
one record to InsertOne; a fixed batch of 100 to InsertMany; a filter to
ReadOne; a filter plus an update document (two provider calls) to
UpdateOne. -/
theorem handler_matches_spec_composition :
    ∀ T : HandlerKind, handleCalls T = specHandlerCalls T := by
  intro T
  cases T <;> rfl

/-- Claim C7: once the schedule has drained every worker (the wg.Wait
barrier of Torment has released), Torment reports elapsed wall time, the
total completed count read from the job pool (exactly K), requests per
second = completed / elapsed, and an operations-per-second figure weighted
by the database client's batch size. -/
theorem torment_reports_drained_stats (k w batchSize : Nat)
    (elapsedSeconds : ℚ) (db : Nat → Bool × Option String)
    (sched : List Nat) (hw : 0 < w)
    (hd : drained (exec db sched (initSys k w)) = true) :
    torment db sched k w batchSize elapsedSeconds =
      { elapsedSeconds := elapsedSeconds
        totalOperations := k
        rps := (k : ℚ) / elapsedSeconds
        ops := ((k * batchSize : Nat) : ℚ) / elapsedSeconds } := by
  have h := drained_exact k w db sched hw hd
  unfold torment tormentStats DeductionPool.getRequestsDone
  rw [h.1]

/-- Claim C7, witness: K = 2, one worker, batch size 3, elapsed 1 second:
Torment reports 2 total operations, 2 requests per second and 6 operations
per second. -/
theorem torment_reports_drained_stats_witness :
    torment dbAllOk [0, 0, 0, 0, 0, 0, 0, 0, 0] 2 1 3 1 =
      { elapsedSeconds := 1, totalOperations := 2, rps := 2, ops := 6 } := by
  rw [torment_reports_drained_stats 2 1 3 1 dbAllOk
    [0, 0, 0, 0, 0, 0, 0, 0, 0] (by decide) (by decide)]
  simp only [Stats.mk.injEq]
  norm_num

/-- Claim C8: any positive number of delivered interrupt signals results in
exactly one cancel call (the handler goroutine performs a single channel
receive and then one Cancel), and Cancel on the pool is idempotent, so
repeated interrupts cannot double-release. -/
theorem interrupt_translates_to_single_cancel (n : Nat) (hn : 1 ≤ n) :
    interruptCancelCalls n = 1 ∧
      ∀ p : DeductionPool, p.cancel.cancel = p.cancel := by
  constructor
  · unfold interruptCancelCalls signalChanPending
    omega
  · intro p
    rfl

/-- Claim C8, witness: three delivered interrupts produce exactly one cancel
call. -/
theorem interrupt_translates_to_single_cancel_witness :
    interruptCancelCalls 3 = 1 :=
  (interrupt_translates_to_single_cancel 3 (by decide)).1

/-- Claim C9: New stores the configured worker count, defaulting to 100 when
the count is zero, and Torment spawns exactly that many workers. -/
theorem torment_spawns_configured_workers (ops conns rateLimit duration : Int) :
    (mongoloadNew ops conns rateLimit duration).1.concurrentConnections =
      (if conns = 0 then 100 else conns) ∧
    tormentSpawnCount (mongoloadNew ops conns rateLimit duration).1 =
      (if conns = 0 then (100 : Int) else conns).toNat := by
  constructor <;> rfl

/-- Claim C10: the constructor New returns a nil error for every combination
of its inputs — no configuration is ever rejected. -/
theorem new_error_always_nil (ops conns rateLimit duration : Int) :
    (mongoloadNew ops conns rateLimit duration).2 = none := rfl

end Mongolad
